import Mathlib

/-!
Verification development for the Complaint Portal backend (Go, `src/main.go`).

The in-memory store (`Storage`), its request handlers and the bootstrap
administrator are embedded as executable Lean definitions.  Go maps keyed by
`int` are represented as lists of entries in insertion order; a Go map never
holds two entries with the same key, and in every state considered here the
entry ids are pairwise distinct, so the list is a faithful picture of the map
contents.  Go's `range` over a map visits entries in an unspecified order;
where a handler's observable output depends on that order (the two
list-all-complaints handlers) the iteration order is passed in explicitly as a
permutation of the entry list.  Wall-clock readings are passed in as a `Nat`
(Unix seconds), mirroring `time.Now().Unix()`.

Transport-level concerns (HTTP method dispatch, JSON decoding failures) are
outside the model; every handler is embedded from its first field-validation
check onwards, which is where all the specified behaviour lives.
-/

namespace ComplaintPortal

/-- Decimal digit characters of a natural number, most significant first
(empty for `0`); fuel-structured so the kernel can evaluate it.  This is the
digit stream Go's integer formatting produces for a non-negative value. -/
def decDigitsAux : Nat → Nat → List Char
  | 0, _ => []
  | fuel + 1, n =>
    if n = 0 then [] else decDigitsAux fuel (n / 10) ++ [Char.ofNat (48 + n % 10)]

def decDigits (n : Nat) : List Char := decDigitsAux n n

/-- Decimal rendering of a natural number: the output of Go's `%d` verb on a
non-negative `int`. -/
def decRepr (n : Nat) : String := String.mk (if n = 0 then ['0'] else decDigits n)

example : decRepr 0 = "0" := rfl
example : decRepr 7 = "7" := rfl
example : decRepr 1234567890 = "1234567890" := rfl

/-- The white-space test of Go's `strings.TrimSpace` restricted to the ASCII
range (the Unicode space characters it additionally strips play no role in
any claim). -/
def isSpaceChar (ch : Char) : Bool :=
  ch == ' ' || ch == '\t' || ch == '\n' || ch == Char.ofNat 11 ||
    ch == Char.ofNat 12 || ch == '\r'

/-- Embeds `strings.TrimSpace`: strip leading and trailing white space. -/
def trimSpace (str : String) : String :=
  String.mk (((str.data.dropWhile isSpaceChar).reverse.dropWhile isSpaceChar).reverse)

example : trimSpace " a@x.com" = "a@x.com" := by decide
example : trimSpace "  " = "" := by decide
example : trimSpace "Ann" = "Ann" := by decide

/-- Embeds the `Complaint` struct of `main.go`.  `Rating` and the ids are Go
`int`s; ids are only ever produced by incrementing a counter from `0`, so they
are carried as `Nat` (overflow is unreachable for the properties at stake),
while the rating, which arrives from the outside world, is carried as `Int`. -/
structure Complaint where
  id : Nat
  title : String
  summary : String
  rating : Int
  userId : Nat
  userName : String
  isResolved : Bool
  createdAt : String
  resolvedAt : String
  deriving Repr, DecidableEq

/-- Embeds the `User` struct of `main.go`.  `complaints` is the denormalized
per-user copy of the user's complaints (`User.Complaints` in the source). -/
structure User where
  id : Nat
  secretCode : String
  name : String
  email : String
  complaints : List Complaint
  isAdmin : Bool
  deriving Repr, DecidableEq

/-- Embeds the `Storage` struct: the two id-keyed Go maps are carried as their
entry lists in insertion order, together with the two id counters. -/
structure Storage where
  users : List User
  complaints : List Complaint
  userIDGen : Nat
  compIDGen : Nat
  deriving Repr, DecidableEq

/-- Embeds `generateSecretCode`: `fmt.Sprintf("SEC_%d_%d", time.Now().Unix(),
storage.userIDGen+1)`.  The caller passes the current wall clock and the
current value of the user id counter; the function reads nothing else — in
particular it never consults the set of already-issued codes. -/
def generateSecretCode (now : Nat) (userIDGen : Nat) : String :=
  "SEC_" ++ decRepr now ++ "_" ++ decRepr (userIDGen + 1)

/-- Embeds `getCurrentTime`: Go renders the wall clock with the fixed layout
`"2006-01-02 15:04:05"`, a nineteen-character — in particular never empty —
string.  The model renders the seconds count in decimal, preserving the
properties the claims use (determined by the instant, never empty). -/
def getCurrentTime (now : Nat) : String := decRepr now

/-- Embeds `findUserBySecretCode`: scan the user map for an entry with the
given secret code. -/
def findUserBySecretCode (secretCode : String) (s : Storage) : Option User :=
  s.users.find? (fun u => u.secretCode == secretCode)

/-- Embeds `findUserByEmail`: scan the user map for an entry with the given
email.  Note the comparison is against the email exactly as submitted. -/
def findUserByEmail (email : String) (s : Storage) : Option User :=
  s.users.find? (fun u => u.email == email)

/-- Go map lookup `storage.complaints[id]` with the reqest's `int` id. -/
def findComplaint (complaintID : Int) (s : Storage) : Option Complaint :=
  s.complaints.find? (fun c => (c.id : Int) == complaintID)

/-- Outcome of `registerHandler` past the transport layer. -/
inductive RegisterResult where
  | badRequest (msg : String)
  | conflict
  | created (u : User)
  deriving Repr, DecidableEq

/-- Embeds `registerHandler` (`main.go` 140–188): field validation, the
duplicate-email check against the *raw* submitted email, then allocation of
the next user id, secret-code generation from clock and counter, and insertion
of the new user (whose `name` and `email` are stored *trimmed*). -/
def registerHandler (now : Nat) (name email : String) (s : Storage) :
    RegisterResult × Storage :=
  if trimSpace name = "" then (.badRequest "Name is required", s)
  else if trimSpace email = "" then (.badRequest "Email is required", s)
  else if (findUserByEmail email s).isSome then (.conflict, s)
  else
    let g := s.userIDGen + 1
    let newUser : User :=
      { id := g
        secretCode := generateSecretCode now g
        name := trimSpace name
        email := trimSpace email
        complaints := []
        isAdmin := false }
    (.created newUser, { s with userIDGen := g, users := s.users ++ [newUser] })

/-- Outcome of `submitComplaintHandler` past the transport layer. -/
inductive SubmitResult where
  | badRequest (msg : String)
  | unauthorized
  | created (c : Complaint)
  deriving Repr, DecidableEq

/-- Embeds `submitComplaintHandler` (`main.go` 222–281): field validation
(including the rating range check), authentication by secret code, allocation
of the next complaint id, and insertion of the new complaint into both the
authoritative map and the owner's denormalized list. -/
def submitComplaintHandler (now : Nat) (secretCode title summary : String)
    (rating : Int) (s : Storage) : SubmitResult × Storage :=
  if trimSpace secretCode = "" then (.badRequest "Secret code is required", s)
  else if trimSpace title = "" then (.badRequest "Title is required", s)
  else if trimSpace summary = "" then (.badRequest "Summary is required", s)
  else if rating < 1 ∨ rating > 10 then
    (.badRequest "Rating must be between 1 and 10", s)
  else
    match findUserBySecretCode secretCode s with
    | none => (.unauthorized, s)
    | some u =>
      let g := s.compIDGen + 1
      let c : Complaint :=
        { id := g
          title := trimSpace title
          summary := trimSpace summary
          rating := rating
          userId := u.id
          userName := u.name
          isResolved := false
          createdAt := getCurrentTime now
          resolvedAt := "" }
      (.created c,
        { s with
          compIDGen := g
          complaints := s.complaints ++ [c]
          users := s.users.map (fun v =>
            if v.id = u.id then { v with complaints := v.complaints ++ [c] } else v) })

/-- Outcome of the two complaint-listing handlers past the transport layer. -/
inductive ListResult where
  | badRequest (msg : String)
  | unauthorized
  | forbidden
  | ok (cs : List Complaint)
  deriving Repr, DecidableEq

/-- Embeds `getAllComplaintsForUserHandler` (`main.go` 284–322).  The Go code
ranges over the complaint map in an unspecified order and keeps the caller's
complaints; `order` is the iteration order the runtime happens to pick — any
permutation of the stored entry list. -/
def getAllComplaintsForUserHandler (secretCode : String)
    (order : List Complaint) (s : Storage) : ListResult :=
  if trimSpace secretCode = "" then .badRequest "Secret code is required"
  else
    match findUserBySecretCode secretCode s with
    | none => .unauthorized
    | some u => .ok (order.filter (fun c => c.userId == u.id))

/-- Embeds `getAllComplaintsForAdminHandler` (`main.go` 325–366): admin-gated;
collects every complaint in the map's iteration order `order`. -/
def getAllComplaintsForAdminHandler (secretCode : String)
    (order : List Complaint) (s : Storage) : ListResult :=
  if trimSpace secretCode = "" then .badRequest "Secret code is required"
  else
    match findUserBySecretCode secretCode s with
    | none => .unauthorized
    | some u =>
      if !u.isAdmin then .forbidden
      else .ok order

/-- Outcome of `viewComplaintHandler` past the transport layer. -/
inductive ViewResult where
  | badRequest (msg : String)
  | unauthorized
  | forbidden
  | notFound
  | ok (c : Complaint)
  deriving Repr, DecidableEq

/-- Embeds `viewComplaintHandler` (`main.go` 369–416): validation,
authentication, then existence check, then the ownership/admin permission
check. -/
def viewComplaintHandler (secretCode : String) (complaintID : Int)
    (s : Storage) : ViewResult :=
  if trimSpace secretCode = "" then .badRequest "Secret code is required"
  else if complaintID ≤ 0 then .badRequest "Valid complaint ID is required"
  else
    match findUserBySecretCode secretCode s with
    | none => .unauthorized
    | some u =>
      match findComplaint complaintID s with
      | none => .notFound
      | some c =>
        if !u.isAdmin && c.userId != u.id then .forbidden
        else .ok c

/-- Store-level outcome of the resolution step (`main.go` 454–477). -/
inductive ResolveOutcome where
  | notFound
  | alreadyResolved
  | resolved (c : Complaint)
  deriving Repr, DecidableEq

/-- The loop of `main.go` 470–476: walk the owner's denormalized list and mark
the first entry with the given id resolved (the loop `break`s after the first
match). -/
def resolveCopies : List Complaint → Nat → String → List Complaint
  | [], _, _ => []
  | d :: ds, cid, ts =>
    if d.id = cid then { d with isResolved := true, resolvedAt := ts } :: ds
    else d :: resolveCopies ds cid ts

/-- Embeds the store mutation of `resolveComplaintHandler` (`main.go`
454–477): look the complaint up, fail on absence or prior resolution leaving
the store untouched, otherwise set `resolved`/`resolvedAt` on the
authoritative entry and propagate the same values to the owner's denormalized
copy in the same step. -/
def resolveRecord (now : Nat) (complaintID : Int) (s : Storage) :
    ResolveOutcome × Storage :=
  match findComplaint complaintID s with
  | none => (.notFound, s)
  | some c =>
    if c.isResolved then (.alreadyResolved, s)
    else
      let ts := getCurrentTime now
      let c' : Complaint := { c with isResolved := true, resolvedAt := ts }
      (.resolved c',
        { s with
          complaints := s.complaints.map (fun d => if d.id = c.id then c' else d)
          users := s.users.map (fun v =>
            if v.id = c.userId then { v with complaints := resolveCopies v.complaints c.id ts }
            else v) })

/-- Outcome of `resolveComplaintHandler` past the transport layer. -/
inductive ResolveResult where
  | badRequest (msg : String)
  | unauthorized
  | forbidden
  | notFound
  | alreadyResolved
  | resolved (c : Complaint)
  deriving Repr, DecidableEq

/-- Embeds `resolveComplaintHandler` (`main.go` 419–484): validation,
authentication, the admin gate, then the store-level resolution step. -/
def resolveComplaintHandler (now : Nat) (secretCode : String)
    (complaintID : Int) (s : Storage) : ResolveResult × Storage :=
  if trimSpace secretCode = "" then (.badRequest "Secret code is required", s)
  else if complaintID ≤ 0 then (.badRequest "Valid complaint ID is required", s)
  else
    match findUserBySecretCode secretCode s with
    | none => (.unauthorized, s)
    | some u =>
      if !u.isAdmin then (.forbidden, s)
      else
        match resolveRecord now complaintID s with
        | (.notFound, s') => (.notFound, s')
        | (.alreadyResolved, s') => (.alreadyResolved, s')
        | (.resolved c, s') => (.resolved c, s')

/-- Embeds `createDefaultAdmin` (`main.go` 487–503). -/
def createDefaultAdmin (s : Storage) : Storage :=
  let g := s.userIDGen + 1
  let adminUser : User :=
    { id := g
      secretCode := "ADMIN_SECRET_123"
      name := "System Administrator"
      email := "admin@complaintportal.com"
      complaints := []
      isAdmin := true }
  { s with userIDGen := g, users := s.users ++ [adminUser] }

/-- The storage literal of `main.go` 84–89. -/
def emptyStorage : Storage :=
  { users := [], complaints := [], userIDGen := 0, compIDGen := 0 }

/-- The store as `main` hands it to the handlers: `createDefaultAdmin` has run
once on the empty store before any request is accepted. -/
def initialStorage : Storage := createDefaultAdmin emptyStorage

/-- One external request, with the environment data (wall clock) it consumes.
`login`, `view` and the two listing requests never mutate the store. -/
inductive Op where
  | register (now : Nat) (name email : String)
  | login (secretCode : String)
  | submit (now : Nat) (secretCode title summary : String) (rating : Int)
  | view (secretCode : String) (complaintID : Int)
  | getForUser (secretCode : String)
  | getForAdmin (secretCode : String)
  | resolve (now : Nat) (secretCode : String) (complaintID : Int)
  deriving Repr, DecidableEq

/-- The store state after a request: read-only handlers leave it unchanged;
the three mutating handlers return their updated store. -/
def applyOp : Op → Storage → Storage
  | .register now name email, s => (registerHandler now name email s).2
  | .submit now sc t sm r, s => (submitComplaintHandler now sc t sm r s).2
  | .resolve now sc cid, s => (resolveComplaintHandler now sc cid s).2
  | _, s => s

/-- The store state reached from process start by a sequence of requests. -/
def runOps (ops : List Op) : Storage :=
  ops.foldl (fun s op => applyOp op s) initialStorage

/-! ### Arithmetic and string lemmas about the token machinery -/

lemma digitChar_ne_underscore {d : Nat} (hd : d < 10) :
    Char.ofNat (48 + d) ≠ '_' := by
  interval_cases d <;> decide

lemma digitChar_inj {d1 d2 : Nat} (h1 : d1 < 10) (h2 : d2 < 10)
    (h : Char.ofNat (48 + d1) = Char.ofNat (48 + d2)) : d1 = d2 := by
  interval_cases d1 <;> interval_cases d2 <;> first
    | rfl
    | exact absurd h (by decide)

lemma decDigitsAux_zero (fuel : Nat) : decDigitsAux fuel 0 = [] := by
  cases fuel <;> simp [decDigitsAux]

lemma decDigitsAux_eq_of_le :
    ∀ (f1 : Nat) {f2 n : Nat}, n ≤ f1 → n ≤ f2 →
      decDigitsAux f1 n = decDigitsAux f2 n := by
  intro f1
  induction f1 with
  | zero =>
    intro f2 n h1 _
    have hn : n = 0 := Nat.le_zero.1 h1
    subst hn
    rw [decDigitsAux_zero, decDigitsAux_zero]
  | succ f ih =>
    intro f2 n h1 h2
    by_cases hn : n = 0
    · subst hn; rw [decDigitsAux_zero, decDigitsAux_zero]
    · cases f2 with
      | zero => exact absurd (Nat.le_zero.1 h2) hn
      | succ k =>
        have hdiv : n / 10 < n := Nat.div_lt_self (Nat.pos_of_ne_zero hn) (by decide)
        have hf : n / 10 ≤ f := Nat.le_of_lt_succ (Nat.lt_of_lt_of_le hdiv h1)
        have hk : n / 10 ≤ k := Nat.le_of_lt_succ (Nat.lt_of_lt_of_le hdiv h2)
        simp only [decDigitsAux, if_neg hn]
        rw [ih hf hk]

/-- Unfolding equation for `decDigits`. -/
lemma decDigits_eq (n : Nat) :
    decDigits n =
      if n = 0 then [] else decDigits (n / 10) ++ [Char.ofNat (48 + n % 10)] := by
  by_cases hn : n = 0
  · subst hn; rfl
  · have hdiv : n / 10 < n := Nat.div_lt_self (Nat.pos_of_ne_zero hn) (by decide)
    unfold decDigits
    cases n with
    | zero => exact absurd rfl hn
    | succ m =>
      simp only [decDigitsAux, if_neg hn, if_neg (by simp : ¬ (m + 1 = 0))]
      rw [decDigitsAux_eq_of_le m (Nat.le_of_lt_succ hdiv) (Nat.le_refl _)]

lemma mem_decDigits : ∀ {n : Nat} {ch : Char}, ch ∈ decDigits n →
    ∃ d, d < 10 ∧ ch = Char.ofNat (48 + d) := by
  intro n
  induction n using Nat.strong_induction_on with
  | _ n ih =>
    intro ch h
    rw [decDigits_eq] at h
    split at h
    · simp at h
    · next hn =>
      rcases List.mem_append.1 h with h1 | h2
      · exact ih (n / 10) (Nat.div_lt_self (Nat.pos_of_ne_zero hn) (by decide)) h1
      · simp only [List.mem_singleton] at h2
        exact ⟨n % 10, Nat.mod_lt _ (by decide), h2⟩

lemma underscore_not_mem_decDigits (n : Nat) : '_' ∉ decDigits n := by
  intro h
  obtain ⟨d, hd, he⟩ := mem_decDigits h
  exact digitChar_ne_underscore hd he.symm

lemma decDigits_eq_nil {n : Nat} : decDigits n = [] ↔ n = 0 := by
  constructor
  · intro h
    by_contra hn
    rw [decDigits_eq, if_neg hn] at h
    simp at h
  · intro h; subst h; rfl

lemma decDigits_inj : ∀ {m : Nat} {n : Nat}, decDigits m = decDigits n → m = n := by
  intro m
  induction m using Nat.strong_induction_on with
  | _ m ih =>
    intro n h
    by_cases hm : m = 0
    · subst hm
      exact (decDigits_eq_nil.1 (by simpa using h.symm)).symm
    · by_cases hn : n = 0
      · subst hn
        exact absurd (decDigits_eq_nil.1 (by simpa using h)) hm
      · rw [decDigits_eq m, decDigits_eq n, if_neg hm, if_neg hn] at h
        obtain ⟨h1, h2⟩ := List.append_inj' h (by simp)
        have hdiv : m / 10 = n / 10 :=
          ih (m / 10) (Nat.div_lt_self (Nat.pos_of_ne_zero hm) (by decide)) h1
        have hmod : m % 10 = n % 10 := by
          have hc : Char.ofNat (48 + m % 10) = Char.ofNat (48 + n % 10) := by
            simpa using h2
          exact digitChar_inj (Nat.mod_lt _ (by decide)) (Nat.mod_lt _ (by decide)) hc
        omega

lemma decRepr_data (n : Nat) :
    (decRepr n).data = if n = 0 then ['0'] else decDigits n := rfl

lemma underscore_not_mem_decRepr (n : Nat) : '_' ∉ (decRepr n).data := by
  rw [decRepr_data]
  split
  · decide
  · exact underscore_not_mem_decDigits n

lemma decDigits_eq_single_zero {n : Nat} (h : decDigits n = ['0']) : n = 0 := by
  by_contra hn
  rw [decDigits_eq, if_neg hn] at h
  have h' : decDigits (n / 10) ++ [Char.ofNat (48 + n % 10)] = [] ++ ['0'] := by
    simpa using h
  obtain ⟨h1, h2⟩ := List.append_inj' h' (by simp)
  have hdiv : n / 10 = 0 := decDigits_eq_nil.1 h1
  simp only [List.cons.injEq] at h2
  have hc : Char.ofNat (48 + n % 10) = Char.ofNat (48 + 0) := by
    rw [h2.1]
  have hmod : n % 10 = 0 := digitChar_inj (Nat.mod_lt _ (by decide)) (by decide) hc
  omega

lemma decRepr_data_inj {m n : Nat} (h : (decRepr m).data = (decRepr n).data) :
    m = n := by
  rw [decRepr_data, decRepr_data] at h
  by_cases hm : m = 0 <;> by_cases hn : n = 0
  · omega
  · rw [if_pos hm, if_neg hn] at h
    exact absurd (decDigits_eq_single_zero h.symm) hn
  · rw [if_neg hm, if_pos hn] at h
    exact absurd (decDigits_eq_single_zero h) hm
  · rw [if_neg hm, if_neg hn] at h
    exact decDigits_inj h

lemma decRepr_ne_empty (n : Nat) : decRepr n ≠ "" := by
  intro h
  have hd : (decRepr n).data = [] := by rw [h]
  rw [decRepr_data] at hd
  split at hd
  · simp at hd
  · next hn => exact hn (decDigits_eq_nil.1 hd)

lemma getCurrentTime_ne_empty (now : Nat) : getCurrentTime now ≠ "" :=
  decRepr_ne_empty now

/-- Cancellation around a separator that occurs in neither prefix. -/
lemma append_cons_cancel {α : Type} {p : α} :
    ∀ {x y u v : List α}, x ++ p :: u = y ++ p :: v → p ∉ x → p ∉ y →
      x = y ∧ u = v := by
  intro x
  induction x with
  | nil =>
    intro y u v h _ hy
    cases y with
    | nil => simpa using h
    | cons b ys =>
      simp only [List.nil_append, List.cons_append, List.cons.injEq] at h
      exact absurd (by simp [h.1]) hy
  | cons a xs ih =>
    intro y u v h hx hy
    cases y with
    | nil =>
      simp only [List.cons_append, List.nil_append, List.cons.injEq] at h
      exact absurd (by simp [h.1]) hx
    | cons b ys =>
      simp only [List.cons_append, List.cons.injEq] at h
      have hx' : p ∉ xs := fun hm => hx (List.mem_cons_of_mem _ hm)
      have hy' : p ∉ ys := fun hm => hy (List.mem_cons_of_mem _ hm)
      obtain ⟨h1, h2⟩ := ih h.2 hx' hy'
      exact ⟨by rw [h.1, h1], h2⟩

lemma generateSecretCode_data (t n : Nat) :
    (generateSecretCode t n).data =
      'S' :: 'E' :: 'C' :: '_' ::
        ((decRepr t).data ++ '_' :: (decRepr (n + 1)).data) := by
  show ((("SEC_" ++ decRepr t) ++ "_") ++ decRepr (n + 1)).data = _
  simp [String.data_append]

/-- The code suffix embeds the user id counter: two generated codes agree only
if they were generated at the same counter value. -/
lemma generateSecretCode_inj_counter {t1 t2 n1 n2 : Nat}
    (h : generateSecretCode t1 n1 = generateSecretCode t2 n2) : n1 = n2 := by
  have hd := congrArg String.data h
  rw [generateSecretCode_data, generateSecretCode_data] at hd
  simp only [List.cons.injEq, true_and] at hd
  obtain ⟨-, h6⟩ :=
    append_cons_cancel hd (underscore_not_mem_decRepr t1) (underscore_not_mem_decRepr t2)
  have := decRepr_data_inj h6
  omega

lemma generateSecretCode_ne_admin (t n : Nat) :
    generateSecretCode t n ≠ "ADMIN_SECRET_123" := by
  intro h
  have hd := congrArg String.data h
  rw [generateSecretCode_data] at hd
  simp at hd

/-! ### List helper lemmas -/

lemma range'_snoc (n : Nat) :
    List.range' 1 n ++ [n + 1] = List.range' 1 (n + 1) := by
  have h := List.range'_append_1 1 n 1
  rw [Nat.add_comm 1 n] at h
  simpa using h

lemma resolveCopies_id_not_mem {cid : Nat} (ts : String) :
    ∀ {L : List Complaint}, (∀ d ∈ L, d.id ≠ cid) → resolveCopies L cid ts = L := by
  intro L
  induction L with
  | nil => intro _; rfl
  | cons d ds ih =>
    intro hL
    unfold resolveCopies
    rw [if_neg (hL d (.head _)), ih (fun e he => hL e (.tail _ he))]

lemma map_resolve_id_not_mem {c' : Complaint} {cid : Nat} :
    ∀ {L : List Complaint}, (∀ e ∈ L, e.id ≠ cid) →
      L.map (fun e => if e.id = cid then c' else e) = L := by
  intro L
  induction L with
  | nil => intro _; rfl
  | cons x xs ih =>
    intro hx
    rw [List.map_cons, if_neg (hx x (.head _)), ih (fun e he => hx e (.tail _ he))]

/-- Resolving the single matching entry of the owner's filtered view is the
same as filtering the authoritative list after the in-place update, provided
complaint ids are pairwise distinct. -/
lemma resolveCopies_filter_eq {c : Complaint} (ts : String) :
    ∀ {L : List Complaint}, c ∈ L → (L.map (fun d => d.id)).Nodup →
      resolveCopies (L.filter (fun d => d.userId == c.userId)) c.id ts =
        (L.map (fun d =>
          if d.id = c.id then { c with isResolved := true, resolvedAt := ts } else d)).filter
            (fun d => d.userId == c.userId) := by
  intro L
  induction L with
  | nil => intro h; cases h
  | cons d ds ih =>
    intro hc hnd
    rw [List.map_cons, List.nodup_cons] at hnd
    obtain ⟨hdid, hnd'⟩ := hnd
    have hds_ne : ∀ e ∈ ds, e.id ≠ d.id := fun e he hq =>
      hdid (hq ▸ List.mem_map_of_mem _ he)
    by_cases hid : d.id = c.id
    · have hdc : d = c := by
        rcases List.mem_cons.1 hc with h1 | h2
        · exact h1.symm
        · exact absurd (hid.symm) (hds_ne c h2)
      subst hdc
      have hmapds : ds.map (fun e =>
          if e.id = d.id then { d with isResolved := true, resolvedAt := ts } else e) = ds :=
        map_resolve_id_not_mem hds_ne
      rw [List.map_cons, if_pos hid, List.filter_cons, List.filter_cons]
      have hut : (d.userId == d.userId) = true := by simp
      have hut' : (({ d with isResolved := true, resolvedAt := ts } : Complaint).userId
          == d.userId) = true := by simp
      rw [if_pos hut, if_pos hut']
      show resolveCopies (d :: _) d.id ts = _
      unfold resolveCopies
      rw [if_pos rfl, hmapds]
    · have hcds : c ∈ ds := by
        rcases List.mem_cons.1 hc with h1 | h2
        · exact absurd (congrArg Complaint.id h1.symm) hid
        · exact h2
      rw [List.map_cons, if_neg hid, List.filter_cons, List.filter_cons]
      by_cases hdu : (d.userId == c.userId) = true
      · rw [if_pos hdu, if_pos hdu]
        show resolveCopies (d :: _) c.id ts = _
        unfold resolveCopies
        rw [if_neg hid, ih hcds hnd']
      · rw [if_neg hdu, if_neg hdu]
        exact ih hcds hnd'


/-- For an owner other than the resolved complaint's owner, the in-place
update is invisible to the filtered view. -/
lemma filter_map_resolve_ne {c : Complaint} (ts : String) {o : Nat}
    (hne : o ≠ c.userId) :
    ∀ {L : List Complaint}, (∀ d ∈ L, d.id = c.id → d.userId = c.userId) →
      (L.map (fun d =>
        if d.id = c.id then { c with isResolved := true, resolvedAt := ts } else d)).filter
          (fun d => d.userId == o) = L.filter (fun d => d.userId == o) := by
  intro L
  induction L with
  | nil => intro _; rfl
  | cons d ds ih =>
    intro hL
    have htail := ih (fun e he => hL e (.tail _ he))
    rw [List.map_cons, List.filter_cons, List.filter_cons]
    by_cases hid : d.id = c.id
    · have hdu : d.userId = c.userId := hL d (.head _) hid
      have h1 : (({ c with isResolved := true, resolvedAt := ts } : Complaint).userId
          == o) = false := by simp [(Ne.symm hne)]
      have h2 : (d.userId == o) = false := by simp [hdu, (Ne.symm hne)]
      rw [if_pos hid, if_neg (by simp [h1]), if_neg (by simp [h2])]
      exact htail
    · rw [if_neg hid]
      by_cases hdu : (d.userId == o) = true
      · rw [if_pos hdu, if_pos hdu, htail]
      · rw [if_neg hdu, if_neg hdu]
        exact htail

/-! ### The reachable-state invariant -/

/-- Invariant of every store state reachable from process start.  `huid` and
`hcid` say the stored ids are exactly the contiguous ranges `1..userIDGen`
and `1..compIDGen` in insertion order; `htok` records the shape of every
stored credential; `hown` that every complaint's owner id points into the
allocated id range; `hview` that every user's denormalized complaint list is
exactly the authoritative list filtered to that owner; `hres` the
`resolvedAt`/`isResolved` coupling. -/
structure StoreInv (s : Storage) : Prop where
  huid : s.users.map (fun u => u.id) = List.range' 1 s.userIDGen
  hcid : s.complaints.map (fun c => c.id) = List.range' 1 s.compIDGen
  hgen : 1 ≤ s.userIDGen
  hadm : ∃ u, u ∈ s.users ∧ u.id = 1 ∧ u.isAdmin = true
  htok : ∀ u ∈ s.users,
    (u.id = 1 ∧ u.secretCode = "ADMIN_SECRET_123") ∨
      (2 ≤ u.id ∧ ∃ t, u.secretCode = generateSecretCode t u.id)
  hown : ∀ c ∈ s.complaints, 1 ≤ c.userId ∧ c.userId ≤ s.userIDGen
  hview : ∀ u ∈ s.users,
    u.complaints = s.complaints.filter (fun c => c.userId == u.id)
  hres : ∀ c ∈ s.complaints, (c.resolvedAt ≠ "" ↔ c.isResolved = true)

lemma StoreInv.user_id_bounds {s : Storage} (h : StoreInv s) {u : User} (hu : u ∈ s.users) :
    1 ≤ u.id ∧ u.id ≤ s.userIDGen := by
  have hm : u.id ∈ s.users.map (fun u => u.id) := List.mem_map_of_mem _ hu
  rw [h.huid] at hm
  have := List.mem_range'_1.1 hm
  omega

lemma StoreInv.complaint_id_bounds {s : Storage} (h : StoreInv s) {c : Complaint}
    (hc : c ∈ s.complaints) : 1 ≤ c.id ∧ c.id ≤ s.compIDGen := by
  have hm : c.id ∈ s.complaints.map (fun c => c.id) := List.mem_map_of_mem _ hc
  rw [h.hcid] at hm
  have := List.mem_range'_1.1 hm
  omega

lemma StoreInv.users_id_nodup {s : Storage} (h : StoreInv s) :
    (s.users.map (fun u => u.id)).Nodup := by
  rw [h.huid]; exact List.nodup_range' 1 s.userIDGen

lemma StoreInv.complaints_id_nodup {s : Storage} (h : StoreInv s) :
    (s.complaints.map (fun c => c.id)).Nodup := by
  rw [h.hcid]; exact List.nodup_range' 1 s.compIDGen

lemma StoreInv.complaint_eq_of_id_eq {s : Storage} (h : StoreInv s) {c d : Complaint}
    (hc : c ∈ s.complaints) (hd : d ∈ s.complaints) (hid : d.id = c.id) : d = c :=
  List.inj_on_of_nodup_map h.complaints_id_nodup hd hc hid

/-- Registration preserves the invariant. -/
lemma inv_registerHandler (now : Nat) (name email : String) {s : Storage}
    (h : StoreInv s) : StoreInv (registerHandler now name email s).2 := by
  unfold registerHandler
  split
  · exact h
  split
  · exact h
  split
  · exact h
  refine ⟨?_, h.hcid, by dsimp only; have := h.hgen; omega, ?_, ?_, ?_, ?_, h.hres⟩
  · dsimp only
    rw [List.map_append, h.huid]
    exact range'_snoc s.userIDGen
  · obtain ⟨u, hu, h1, h2⟩ := h.hadm
    exact ⟨u, List.mem_append_left _ hu, h1, h2⟩
  · intro u hu
    rcases List.mem_append.1 hu with h1 | h2
    · exact h.htok u h1
    · rw [List.mem_singleton] at h2
      subst h2
      refine Or.inr ⟨?_, now, rfl⟩
      have := h.hgen
      dsimp only
      omega
  · intro c hc
    have := h.hown c hc
    dsimp only
    omega
  · intro u hu
    rcases List.mem_append.1 hu with h1 | h2
    · exact h.hview u h1
    · rw [List.mem_singleton] at h2
      subst h2
      show ([] : List Complaint) = _
      symm
      rw [List.filter_eq_nil_iff]
      intro c hc
      have := (h.hown c hc).2
      simp only [beq_iff_eq]
      omega

lemma map_uid_of_preserved {f : User → User} (hf : ∀ v, (f v).id = v.id)
    (l : List User) :
    (l.map f).map (fun v => v.id) = l.map (fun v => v.id) := by
  rw [List.map_map]
  apply List.map_congr_left
  intro v _
  exact hf v

lemma map_cid_of_preserved {f : Complaint → Complaint} (hf : ∀ d, (f d).id = d.id)
    (l : List Complaint) :
    (l.map f).map (fun d => d.id) = l.map (fun d => d.id) := by
  rw [List.map_map]
  apply List.map_congr_left
  intro d _
  exact hf d

/-- Complaint submission preserves the invariant. -/
lemma inv_submitComplaintHandler (now : Nat) (secretCode title summary : String)
    (rating : Int) {s : Storage} (h : StoreInv s) :
    StoreInv (submitComplaintHandler now secretCode title summary rating s).2 := by
  unfold submitComplaintHandler
  split
  · exact h
  split
  · exact h
  split
  · exact h
  split
  · exact h
  split
  · exact h
  next u heq =>
  have hu : u ∈ s.users := List.mem_of_find?_eq_some heq
  have hub := h.user_id_bounds hu
  refine ⟨?_, ?_, h.hgen, ?_, ?_, ?_, ?_, ?_⟩
  · dsimp only
    rw [map_uid_of_preserved (fun v => by by_cases hvi : v.id = u.id <;> simp [hvi])]
    exact h.huid
  · dsimp only
    rw [List.map_append, h.hcid]
    exact range'_snoc s.compIDGen
  · obtain ⟨a, ha, h1, h2⟩ := h.hadm
    refine ⟨_, List.mem_map_of_mem _ ha, ?_, ?_⟩
    · by_cases hai : a.id = u.id
      · rw [if_pos hai]; exact h1
      · rw [if_neg hai]; exact h1
    · by_cases hai : a.id = u.id
      · rw [if_pos hai]; exact h2
      · rw [if_neg hai]; exact h2
  · intro v' hv'
    obtain ⟨v, hv, rfl⟩ := List.mem_map.1 hv'
    have hform := h.htok v hv
    by_cases hvi : v.id = u.id
    · rw [if_pos hvi]; exact hform
    · rw [if_neg hvi]; exact hform
  · intro d hd
    dsimp only at hd
    rcases List.mem_append.1 hd with h1 | h2
    · exact h.hown d h1
    · rw [List.mem_singleton] at h2
      subst h2
      exact hub
  · intro v' hv'
    obtain ⟨v, hv, rfl⟩ := List.mem_map.1 hv'
    have hbase := h.hview v hv
    by_cases hvi : v.id = u.id
    · rw [if_pos hvi]
      dsimp only
      rw [List.filter_append, ← hbase, hvi]
      simp
    · rw [if_neg hvi]
      dsimp only
      rw [List.filter_append, ← hbase]
      have hne : (u.id == v.id) = false := by
        simp only [beq_eq_false_iff_ne, ne_eq]
        exact fun hq => hvi hq.symm
      simp [List.filter_cons, hne]
  · intro d hd
    dsimp only at hd
    rcases List.mem_append.1 hd with h1 | h2
    · exact h.hres d h1
    · rw [List.mem_singleton] at h2
      subst h2
      simp

/-- The store-level resolution step preserves the invariant. -/
lemma inv_resolveRecord (now : Nat) (complaintID : Int) {s : Storage}
    (h : StoreInv s) : StoreInv (resolveRecord now complaintID s).2 := by
  unfold resolveRecord
  split
  · exact h
  next c heq =>
  split
  · exact h
  next hcres =>
  have hc : c ∈ s.complaints := List.mem_of_find?_eq_some heq
  refine ⟨?_, ?_, h.hgen, ?_, ?_, ?_, ?_, ?_⟩
  · dsimp only
    rw [map_uid_of_preserved (fun v => by
      by_cases hvi : v.id = c.userId <;> simp [hvi])]
    exact h.huid
  · dsimp only
    rw [map_cid_of_preserved (fun d => by
      by_cases hdi : d.id = c.id <;> simp [hdi])]
    exact h.hcid
  · obtain ⟨a, ha, h1, h2⟩ := h.hadm
    refine ⟨_, List.mem_map_of_mem _ ha, ?_, ?_⟩
    · by_cases hai : a.id = c.userId
      · rw [if_pos hai]; exact h1
      · rw [if_neg hai]; exact h1
    · by_cases hai : a.id = c.userId
      · rw [if_pos hai]; exact h2
      · rw [if_neg hai]; exact h2
  · intro v' hv'
    obtain ⟨v, hv, rfl⟩ := List.mem_map.1 hv'
    have hform := h.htok v hv
    by_cases hvi : v.id = c.userId
    · rw [if_pos hvi]; exact hform
    · rw [if_neg hvi]; exact hform
  · intro d' hd'
    obtain ⟨d, hd, rfl⟩ := List.mem_map.1 hd'
    by_cases hdi : d.id = c.id
    · rw [if_pos hdi]
      dsimp only
      exact h.hown c hc
    · rw [if_neg hdi]
      exact h.hown d hd
  · intro v' hv'
    obtain ⟨v, hv, rfl⟩ := List.mem_map.1 hv'
    have hbase := h.hview v hv
    by_cases hvi : v.id = c.userId
    · rw [if_pos hvi]
      dsimp only
      rw [hbase, hvi]
      exact resolveCopies_filter_eq _ hc h.complaints_id_nodup
    · rw [if_neg hvi]
      dsimp only
      rw [hbase]
      symm
      exact filter_map_resolve_ne _ hvi
        (fun d hd hq => by rw [h.complaint_eq_of_id_eq hc hd hq])
  · intro d' hd'
    obtain ⟨d, hd, rfl⟩ := List.mem_map.1 hd'
    by_cases hdi : d.id = c.id
    · rw [if_pos hdi]
      dsimp only
      simp [getCurrentTime_ne_empty now]
    · rw [if_neg hdi]
      exact h.hres d hd

/-- The resolve handler preserves the invariant. -/
lemma inv_resolveComplaintHandler (now : Nat) (secretCode : String)
    (complaintID : Int) {s : Storage} (h : StoreInv s) :
    StoreInv (resolveComplaintHandler now secretCode complaintID s).2 := by
  unfold resolveComplaintHandler
  split
  · exact h
  split
  · exact h
  split
  · exact h
  next u heq =>
  split
  · exact h
  have hr := inv_resolveRecord now complaintID h
  split <;> next heq2 => rw [heq2] at hr; exact hr

/-- The bootstrap administrator record stored by `createDefaultAdmin` at
process start. -/
def adminUser : User :=
  { id := 1
    secretCode := "ADMIN_SECRET_123"
    name := "System Administrator"
    email := "admin@complaintportal.com"
    complaints := []
    isAdmin := true }

/-- The bootstrap state satisfies the invariant. -/
lemma inv_initialStorage : StoreInv initialStorage := by
  refine ⟨by decide, by decide, by decide, ?_, ?_, ?_, ?_, ?_⟩
  · exact ⟨adminUser, by decide, rfl, rfl⟩
  · intro u hu
    simp only [initialStorage, createDefaultAdmin, emptyStorage, List.nil_append,
      List.mem_singleton] at hu
    subst hu
    exact Or.inl ⟨rfl, rfl⟩
  · intro c hc
    simp [initialStorage, createDefaultAdmin, emptyStorage] at hc
  · intro u hu
    simp only [initialStorage, createDefaultAdmin, emptyStorage, List.nil_append,
      List.mem_singleton] at hu
    subst hu
    rfl
  · intro c hc
    simp [initialStorage, createDefaultAdmin, emptyStorage] at hc

/-- Every request preserves the invariant. -/
lemma inv_applyOp (op : Op) {s : Storage} (h : StoreInv s) :
    StoreInv (applyOp op s) := by
  cases op with
  | register now name email => exact inv_registerHandler now name email h
  | submit now sc t sm r => exact inv_submitComplaintHandler now sc t sm r h
  | resolve now sc cid => exact inv_resolveComplaintHandler now sc cid h
  | login sc => exact h
  | view sc cid => exact h
  | getForUser sc => exact h
  | getForAdmin sc => exact h

/-- Every reachable state satisfies the invariant. -/
lemma inv_runOps (ops : List Op) : StoreInv (runOps ops) := by
  suffices hgen : ∀ s : Storage, StoreInv s →
      StoreInv (ops.foldl (fun s op => applyOp op s) s) from
    hgen initialStorage inv_initialStorage
  induction ops with
  | nil => exact fun s hs => hs
  | cons op ops ih =>
    intro s hs
    exact ih _ (inv_applyOp op hs)

/-- In an invariant state, users with different ids carry different secret
codes: the bootstrap code never has the generated shape, and two generated
codes embed their distinct id counters. -/
lemma StoreInv.code_ne_of_id_ne {s : Storage} (h : StoreInv s) {u v : User}
    (hu : u ∈ s.users) (hv : v ∈ s.users) (hne : u.id ≠ v.id) :
    u.secretCode ≠ v.secretCode := by
  rcases h.htok u hu with ⟨hu1, hu2⟩ | ⟨-, t1, hu2⟩ <;>
    rcases h.htok v hv with ⟨hv1, hv2⟩ | ⟨-, t2, hv2⟩
  · exact absurd (hu1.trans hv1.symm) hne
  · rw [hu2, hv2]
    intro hq
    exact generateSecretCode_ne_admin t2 v.id hq.symm
  · rw [hu2, hv2]
    exact generateSecretCode_ne_admin t1 u.id
  · rw [hu2, hv2]
    intro hq
    exact hne (generateSecretCode_inj_counter hq)

/-- In an invariant state the stored secret codes are pairwise distinct. -/
lemma StoreInv.tokens_pairwise {s : Storage} (h : StoreInv s) :
    s.users.Pairwise (fun u v => u.secretCode ≠ v.secretCode) := by
  have hids : s.users.Pairwise (fun u v => u.id ≠ v.id) :=
    List.pairwise_map.1 h.users_id_nodup
  exact hids.imp_of_mem (fun ha hb hne => h.code_ne_of_id_ne ha hb hne)

/-! ### Effect lemmas for the mutating handlers -/

lemma registerHandler_complaints (now : Nat) (name email : String) (s : Storage) :
    (registerHandler now name email s).2.complaints = s.complaints := by
  unfold registerHandler
  split
  · rfl
  split
  · rfl
  split
  · rfl
  rfl

lemma registerHandler_compIDGen (now : Nat) (name email : String) (s : Storage) :
    (registerHandler now name email s).2.compIDGen = s.compIDGen := by
  unfold registerHandler
  split
  · rfl
  split
  · rfl
  split
  · rfl
  rfl

/-- A successful registration stores exactly one new user carrying the next
counter value. -/
lemma registerHandler_created {now : Nat} {name email : String} {s : Storage}
    {u : User} (h : (registerHandler now name email s).1 = .created u) :
    u.id = s.userIDGen + 1 ∧
    (registerHandler now name email s).2.userIDGen = s.userIDGen + 1 ∧
    (registerHandler now name email s).2.users = s.users ++ [u] := by
  unfold registerHandler at h ⊢
  by_cases h1 : trimSpace name = ""
  · rw [if_pos h1] at h
    cases h
  rw [if_neg h1] at h ⊢
  by_cases h2 : trimSpace email = ""
  · rw [if_pos h2] at h
    cases h
  rw [if_neg h2] at h ⊢
  by_cases h3 : (findUserByEmail email s).isSome = true
  · rw [if_pos h3] at h
    cases h
  rw [if_neg h3] at h ⊢
  dsimp only at h ⊢
  injection h with h4
  subst h4
  exact ⟨rfl, rfl, rfl⟩

lemma submitComplaintHandler_compIDGen_le (now : Nat) (sc t sm : String)
    (r : Int) (s : Storage) :
    s.compIDGen ≤ (submitComplaintHandler now sc t sm r s).2.compIDGen := by
  unfold submitComplaintHandler
  split
  · exact Nat.le_refl _
  split
  · exact Nat.le_refl _
  split
  · exact Nat.le_refl _
  split
  · exact Nat.le_refl _
  split
  · exact Nat.le_refl _
  · exact Nat.le_succ _

lemma resolveRecord_compIDGen (now : Nat) (cid : Int) (s : Storage) :
    (resolveRecord now cid s).2.compIDGen = s.compIDGen := by
  unfold resolveRecord
  split
  · rfl
  split
  · rfl
  rfl

lemma resolveComplaintHandler_compIDGen (now : Nat) (sc : String) (cid : Int)
    (s : Storage) :
    (resolveComplaintHandler now sc cid s).2.compIDGen = s.compIDGen := by
  unfold resolveComplaintHandler
  split
  · rfl
  split
  · rfl
  split
  · rfl
  split
  · rfl
  split <;> next heq2 =>
    rw [show (_, _).2 = ((_, _) : ResolveResult × Storage).2 from rfl]
    have := resolveRecord_compIDGen now cid s
    rw [heq2] at this
    exact this

/-- The complaint id counter never decreases across any request. -/
lemma compIDGen_mono_applyOp (op : Op) (s : Storage) :
    s.compIDGen ≤ (applyOp op s).compIDGen := by
  cases op with
  | register now name email =>
    rw [show applyOp (Op.register now name email) s =
      (registerHandler now name email s).2 from rfl, registerHandler_compIDGen]
  | submit now sc t sm r => exact submitComplaintHandler_compIDGen_le now sc t sm r s
  | resolve now sc cid =>
    rw [show applyOp (Op.resolve now sc cid) s =
      (resolveComplaintHandler now sc cid s).2 from rfl,
      resolveComplaintHandler_compIDGen]
  | login sc => exact Nat.le_refl _
  | view sc cid => exact Nat.le_refl _
  | getForUser sc => exact Nat.le_refl _
  | getForAdmin sc => exact Nat.le_refl _

/-! ### Monotonicity of the resolution flag -/

lemma resolved_of_mem_base {s : Storage} (h : StoreInv s) {c c2 : Complaint}
    (hc : c ∈ s.complaints) (hres : c.isResolved = true)
    (hc2 : c2 ∈ s.complaints) (hid : c2.id = c.id) : c2.isResolved = true := by
  rw [h.complaint_eq_of_id_eq hc hc2 hid]
  exact hres

lemma resolved_monotone_resolveRecord (now : Nat) (cid : Int) {s : Storage}
    (h : StoreInv s) {c : Complaint} (hc : c ∈ s.complaints)
    (hres : c.isResolved = true) :
    ∀ c2 ∈ (resolveRecord now cid s).2.complaints, c2.id = c.id →
      c2.isResolved = true := by
  intro c2 hc2 hid
  unfold resolveRecord at hc2
  split at hc2
  · exact resolved_of_mem_base h hc hres hc2 hid
  next c0 heq =>
  split at hc2
  · exact resolved_of_mem_base h hc hres hc2 hid
  · dsimp only at hc2
    obtain ⟨d, hd, rfl⟩ := List.mem_map.1 hc2
    by_cases hdi : d.id = c0.id
    · rw [if_pos hdi]
    · rw [if_neg hdi] at hid ⊢
      exact resolved_of_mem_base h hc hres hd hid

lemma resolved_monotone_submit (now : Nat) (sc t sm : String) (r : Int)
    {s : Storage} (h : StoreInv s) {c : Complaint} (hc : c ∈ s.complaints)
    (hres : c.isResolved = true) :
    ∀ c2 ∈ (submitComplaintHandler now sc t sm r s).2.complaints,
      c2.id = c.id → c2.isResolved = true := by
  intro c2 hc2 hid
  unfold submitComplaintHandler at hc2
  split at hc2
  · exact resolved_of_mem_base h hc hres hc2 hid
  split at hc2
  · exact resolved_of_mem_base h hc hres hc2 hid
  split at hc2
  · exact resolved_of_mem_base h hc hres hc2 hid
  split at hc2
  · exact resolved_of_mem_base h hc hres hc2 hid
  split at hc2
  · exact resolved_of_mem_base h hc hres hc2 hid
  · dsimp only at hc2
    rcases List.mem_append.1 hc2 with h1 | h2
    · exact resolved_of_mem_base h hc hres h1 hid
    · rw [List.mem_singleton] at h2
      subst h2
      have hid2 : s.compIDGen + 1 = c.id := hid
      have := (h.complaint_id_bounds hc).2
      omega

/-- One request never clears the resolution flag of a stored complaint. -/
lemma resolved_monotone_applyOp (op : Op) {s : Storage} (h : StoreInv s)
    {c : Complaint} (hc : c ∈ s.complaints) (hres : c.isResolved = true) :
    ∀ c2 ∈ (applyOp op s).complaints, c2.id = c.id → c2.isResolved = true := by
  intro c2 hc2 hid
  cases op with
  | register now name email =>
    rw [show applyOp (Op.register now name email) s =
      (registerHandler now name email s).2 from rfl,
      registerHandler_complaints] at hc2
    exact resolved_of_mem_base h hc hres hc2 hid
  | submit now sc t sm r => exact resolved_monotone_submit now sc t sm r h hc hres c2 hc2 hid
  | resolve now sc cid =>
    rw [show applyOp (Op.resolve now sc cid) s =
      (resolveComplaintHandler now sc cid s).2 from rfl] at hc2
    unfold resolveComplaintHandler at hc2
    split at hc2
    · exact resolved_of_mem_base h hc hres hc2 hid
    split at hc2
    · exact resolved_of_mem_base h hc hres hc2 hid
    split at hc2
    · exact resolved_of_mem_base h hc hres hc2 hid
    split at hc2
    · exact resolved_of_mem_base h hc hres hc2 hid
    split at hc2 <;> next heq2 =>
      refine resolved_monotone_resolveRecord now cid h hc hres c2 ?_ hid
      rw [heq2]
      exact hc2
  | login sc => exact resolved_of_mem_base h hc hres hc2 hid
  | view sc cid => exact resolved_of_mem_base h hc hres hc2 hid
  | getForUser sc => exact resolved_of_mem_base h hc hres hc2 hid
  | getForAdmin sc => exact resolved_of_mem_base h hc hres hc2 hid

/-- After any request, a stored complaint id is still stored. -/
lemma mem_id_complaints_applyOp (op : Op) {s : Storage} (h : StoreInv s)
    {c : Complaint} (hc : c ∈ s.complaints) :
    ∃ c1 ∈ (applyOp op s).complaints, c1.id = c.id := by
  have h2 := inv_applyOp op h
  have hgenle := compIDGen_mono_applyOp op s
  have hb := h.complaint_id_bounds hc
  have hm : c.id ∈ (applyOp op s).complaints.map (fun d => d.id) := by
    rw [h2.hcid]
    exact List.mem_range'_1.2 ⟨hb.1, by omega⟩
  obtain ⟨c1, hc1, hid⟩ := List.mem_map.1 hm
  exact ⟨c1, hc1, hid⟩

/-- The resolution flag, once set, survives any further request sequence. -/
lemma resolved_monotone_many (more : List Op) :
    ∀ {s : Storage}, StoreInv s → ∀ {c : Complaint}, c ∈ s.complaints →
      c.isResolved = true →
      ∀ c2 ∈ (more.foldl (fun s op => applyOp op s) s).complaints,
        c2.id = c.id → c2.isResolved = true := by
  induction more with
  | nil =>
    intro s h c hc hres c2 hc2 hid
    exact resolved_of_mem_base h hc hres hc2 hid
  | cons op ops ih =>
    intro s h c hc hres c2 hc2 hid
    obtain ⟨c1, hc1, hid1⟩ := mem_id_complaints_applyOp op h hc
    have hres1 : c1.isResolved = true := resolved_monotone_applyOp op h hc hres c1 hc1 hid1
    have := ih (inv_applyOp op h) hc1 hres1 c2 hc2 (by rw [hid, ← hid1])
    exact this

/-! ### Claim theorems -/

/-- Claim C1 (code bug).  The spec demands that no two stored accounts ever
share an email and that a duplicate registration fails with Conflict.  The
code checks the duplicate against the *raw* submitted email but stores the
*trimmed* one, so registering `"a@x.com"` and then `" a@x.com"` (leading
space) succeeds twice and stores two distinct accounts with the identical
email `"a@x.com"`. -/
theorem C1_email_uniqueness_code_bug :
    (registerHandler 200 "Bob" " a@x.com" (runOps [Op.register 100 "Ann" "a@x.com"])).1 ≠
      RegisterResult.conflict ∧
    (runOps [Op.register 100 "Ann" "a@x.com", Op.register 200 "Bob" " a@x.com"]).users.map
      (fun u => u.email) = ["admin@complaintportal.com", "a@x.com", "a@x.com"] ∧
    (runOps [Op.register 100 "Ann" "a@x.com", Op.register 200 "Bob" " a@x.com"]).users.map
      (fun u => u.id) = [1, 2, 3] := by
  refine ⟨by decide, by decide, by decide⟩

/-- The single account of the C2 counterexample store. -/
def c2EveUser : User :=
  { id := 1
    secretCode := "SEC_5_3"
    name := "Eve"
    email := "eve@x.com"
    complaints := []
    isAdmin := false }

/-- C2 counterexample store: a store whose one account already holds exactly
the code the generator will derive from clock 5 and the current counter. -/
def c2ClashStore : Storage :=
  { users := [c2EveUser], complaints := [], userIDGen := 1, compIDGen := 0 }

/-- Claim C2 (counterexample to the claimed mechanism).  `CreateAccount` does
not check the generated code against the set of existing codes, and performs
no retry: run against a store that already contains the code the
timestamp-and-counter scheme is about to produce, it stores a second account
with the very same code and does not fail. -/
theorem C2_no_token_set_check_counterexample :
    (registerHandler 5 "Mallory" "m@x.com" c2ClashStore).1 ≠ RegisterResult.conflict ∧
    (registerHandler 5 "Mallory" "m@x.com" c2ClashStore).2.users.map
      (fun u => u.secretCode) = ["SEC_5_3", "SEC_5_3"] := by
  refine ⟨by decide, by decide⟩

/-- Claim C2 (amended).  In every state reachable from process start by any
request sequence the stored secret codes are nevertheless pairwise distinct:
each generated code embeds the account's unique id counter, and the bootstrap
administrator's fixed code never has the generated shape. -/
theorem C2_token_uniqueness_reachable (ops : List Op) :
    (runOps ops).users.Pairwise (fun u v => u.secretCode ≠ v.secretCode) :=
  (inv_runOps ops).tokens_pairwise

/-- Claim C3 (confirmed).  In every reachable state, every complaint copy held
in a user's denormalized list agrees with the authoritative complaint of the
same id on both `isResolved` and `resolvedAt`; in particular this holds after
every successful resolution and after every subsequent request. -/
theorem C3_view_agrees_with_authoritative (ops : List Op) :
    ∀ u ∈ (runOps ops).users, ∀ cc ∈ u.complaints,
      ∃ c ∈ (runOps ops).complaints,
        c.id = cc.id ∧ c.isResolved = cc.isResolved ∧ c.resolvedAt = cc.resolvedAt := by
  intro u hu cc hcc
  have h := inv_runOps ops
  rw [h.hview u hu] at hcc
  exact ⟨cc, List.mem_of_mem_filter hcc, rfl, rfl, rfl⟩

def c3Ops : List Op :=
  [Op.register 10 "Ann" "ann@x.com", Op.submit 11 "SEC_10_3" "T1" "S1" 5,
   Op.resolve 13 "ADMIN_SECRET_123" 1]

/-- The denormalized copy held by the registered user after `c3Ops`. -/
def c3Copy : Complaint :=
  { id := 1
    title := "T1"
    summary := "S1"
    rating := 5
    userId := 2
    userName := "Ann"
    isResolved := true
    createdAt := "11"
    resolvedAt := "13" }

/-- The registered user after `c3Ops`. -/
def c3User : User :=
  { id := 2
    secretCode := "SEC_10_3"
    name := "Ann"
    email := "ann@x.com"
    complaints := [c3Copy]
    isAdmin := false }

theorem C3_view_agrees_witness :
    ∃ c ∈ (runOps c3Ops).complaints,
      c.id = c3Copy.id ∧ c.isResolved = c3Copy.isResolved ∧
        c.resolvedAt = c3Copy.resolvedAt :=
  C3_view_agrees_with_authoritative c3Ops c3User (by decide) c3Copy (by decide)

/-- Claim C4 (confirmed).  For every store state and requested id, the
resolution step fails with NotFound exactly when the id is absent, fails with
AlreadyResolved exactly when the complaint is present and already resolved,
succeeds otherwise, and on either failure returns the store unchanged. -/
theorem C4_resolveRecord_outcomes (now : Nat) (complaintID : Int) (s : Storage) :
    ((resolveRecord now complaintID s).1 = ResolveOutcome.notFound ↔
      findComplaint complaintID s = none) ∧
    ((resolveRecord now complaintID s).1 = ResolveOutcome.alreadyResolved ↔
      ∃ c, findComplaint complaintID s = some c ∧ c.isResolved = true) ∧
    (∀ c, findComplaint complaintID s = some c → c.isResolved = false →
      (resolveRecord now complaintID s).1 =
        ResolveOutcome.resolved
          { c with isResolved := true, resolvedAt := getCurrentTime now }) ∧
    ((resolveRecord now complaintID s).1 = ResolveOutcome.notFound ∨
        (resolveRecord now complaintID s).1 = ResolveOutcome.alreadyResolved →
      (resolveRecord now complaintID s).2 = s) := by
  unfold resolveRecord
  split
  · next heq =>
    refine ⟨by simp [heq], ?_, ?_, fun _ => rfl⟩
    · constructor
      · intro hq
        exact absurd hq (by simp)
      · rintro ⟨c, hc, -⟩
        rw [heq] at hc
        cases hc
    · intro c hc
      rw [heq] at hc
      cases hc
  · next c0 heq =>
    split
    · next hres0 =>
      refine ⟨?_, ?_, ?_, fun _ => rfl⟩
      · constructor
        · intro hq
          exact absurd hq (by simp)
        · intro hq
          rw [heq] at hq
          cases hq
      · exact ⟨fun _ => ⟨c0, heq, hres0⟩, fun _ => rfl⟩
      · intro c hc hcres
        rw [heq] at hc
        injection hc with hc2
        subst hc2
        rw [hres0] at hcres
        cases hcres
    · next hres0 =>
      refine ⟨?_, ?_, ?_, ?_⟩
      · constructor
        · intro hq
          exact absurd hq (by simp)
        · intro hq
          rw [heq] at hq
          cases hq
      · constructor
        · intro hq
          exact absurd hq (by simp)
        · rintro ⟨c, hc, hcres⟩
          rw [heq] at hc
          injection hc with hc2
          subst hc2
          exact absurd hcres hres0
      · intro c hc hcres
        rw [heq] at hc
        injection hc with hc2
        subst hc2
        rfl
      · intro hq
        rcases hq with hq | hq <;> exact absurd hq (by simp)

def c4Ops : List Op :=
  [Op.register 10 "Ann" "ann@x.com", Op.submit 11 "SEC_10_3" "T1" "S1" 5]

/-- The stored, still unresolved complaint after `c4Ops`. -/
def c4Complaint : Complaint :=
  { id := 1
    title := "T1"
    summary := "S1"
    rating := 5
    userId := 2
    userName := "Ann"
    isResolved := false
    createdAt := "11"
    resolvedAt := "" }

theorem C4_resolveRecord_outcomes_witness :
    (resolveRecord 13 1 (runOps c4Ops)).1 =
      ResolveOutcome.resolved
        { c4Complaint with isResolved := true, resolvedAt := getCurrentTime 13 } ∧
    (resolveRecord 13 99 (runOps c4Ops)).2 = runOps c4Ops :=
  ⟨(C4_resolveRecord_outcomes 13 1 (runOps c4Ops)).2.2.1 c4Complaint (by decide) (by decide),
   (C4_resolveRecord_outcomes 13 99 (runOps c4Ops)).2.2.2 (Or.inl (by decide))⟩

/-- Claim C5 (confirmed).  In every reachable state `resolvedAt` is non-empty
exactly when `resolved` holds; a newly created complaint starts unresolved
with empty `resolvedAt`; and once a stored complaint is resolved, the
complaint carrying that id stays resolved across every further request
sequence. -/
theorem C5_resolution_one_way (ops more : List Op) :
    (∀ c ∈ (runOps ops).complaints, (c.resolvedAt ≠ "" ↔ c.isResolved = true)) ∧
    (∀ (now : Nat) (sc t sm : String) (r : Int) (c : Complaint) (s2 : Storage),
      submitComplaintHandler now sc t sm r (runOps ops) = (SubmitResult.created c, s2) →
      c.isResolved = false ∧ c.resolvedAt = "") ∧
    (∀ c ∈ (runOps ops).complaints, c.isResolved = true →
      ∀ c2 ∈ (more.foldl (fun s op => applyOp op s) (runOps ops)).complaints,
        c2.id = c.id → c2.isResolved = true) := by
  refine ⟨fun c hc => (inv_runOps ops).hres c hc, ?_, ?_⟩
  · intro now sc t sm r c s2 h
    unfold submitComplaintHandler at h
    split at h
    · simp at h
    split at h
    · simp at h
    split at h
    · simp at h
    split at h
    · simp at h
    split at h
    · simp at h
    · dsimp only at h
      rw [Prod.mk.injEq] at h
      obtain ⟨h4, -⟩ := h
      injection h4 with h6
      rw [← h6]
      exact ⟨rfl, rfl⟩
  · intro c hc hres c2 hc2 hid
    exact resolved_monotone_many more (inv_runOps ops) hc hres c2 hc2 hid

def c5Ops : List Op :=
  [Op.register 10 "Ann" "ann@x.com", Op.submit 11 "SEC_10_3" "T1" "S1" 5,
   Op.resolve 13 "ADMIN_SECRET_123" 1]

def c5More : List Op := [Op.submit 14 "SEC_10_3" "T2" "S2" 7]

/-- The resolved authoritative complaint after `c5Ops`. -/
def c5Res : Complaint :=
  { id := 1
    title := "T1"
    summary := "S1"
    rating := 5
    userId := 2
    userName := "Ann"
    isResolved := true
    createdAt := "11"
    resolvedAt := "13" }

theorem C5_resolution_one_way_witness :
    (c5Res.resolvedAt ≠ "" ↔ c5Res.isResolved = true) ∧ c5Res.isResolved = true :=
  ⟨(C5_resolution_one_way c5Ops c5More).1 c5Res (by decide),
   (C5_resolution_one_way c5Ops c5More).2.2 c5Res (by decide) (by decide) c5Res
     (by decide) (by decide)⟩

/-- Whether a registration outcome created an account. -/
def RegisterResult.isCreated : RegisterResult → Bool
  | .created _ => true
  | _ => false

lemma isCreated_exists {r : RegisterResult} (h : r.isCreated = true) :
    ∃ u, r = RegisterResult.created u := by
  cases r with
  | badRequest m => cases h
  | conflict => cases h
  | created u => exact ⟨u, rfl⟩

/-- Fold a batch of registration requests (clock, name, email) over the
store, keeping only the store: N back-to-back `CreateAccount` calls. -/
def regBurst (reqs : List (Nat × String × String)) (s : Storage) : Storage :=
  reqs.foldl (fun s r => (registerHandler r.1 r.2.1 r.2.2 s).2) s

/-- Every request of the batch succeeds. -/
def burstAllCreated : List (Nat × String × String) → Storage → Prop
  | [], _ => True
  | r :: rs, s =>
    (registerHandler r.1 r.2.1 r.2.2 s).1.isCreated = true ∧
      burstAllCreated rs (registerHandler r.1 r.2.1 r.2.2 s).2

/-- N successful registrations extend the id list by the contiguous range
starting right after the current counter. -/
lemma regBurst_ids (reqs : List (Nat × String × String)) :
    ∀ s : Storage, burstAllCreated reqs s →
      (regBurst reqs s).users.map (fun u => u.id) =
        s.users.map (fun u => u.id) ++
          List.range' (s.userIDGen + 1) reqs.length ∧
      (regBurst reqs s).userIDGen = s.userIDGen + reqs.length := by
  induction reqs with
  | nil =>
    intro s _
    exact ⟨by simp [regBurst], by simp [regBurst]⟩
  | cons r rs ih =>
    intro s hall
    obtain ⟨h1, h2⟩ := hall
    obtain ⟨u, hu⟩ := isCreated_exists h1
    obtain ⟨hid, hgen, husers⟩ := registerHandler_created hu
    have hih := ih _ h2
    rw [show regBurst (r :: rs) s =
      regBurst rs (registerHandler r.1 r.2.1 r.2.2 s).2 from rfl]
    rw [hih.1, hih.2, husers, hgen]
    constructor
    · rw [List.map_append, List.append_assoc]
      congr 1
      rw [show (r :: rs).length = rs.length + 1 from rfl, List.range'_succ]
      rw [show (List.map (fun u => u.id) [u]) = [u.id] from rfl, hid]
      rfl
    · rw [show (r :: rs).length = rs.length + 1 from rfl]
      omega

/-- Claim C6 (confirmed).  In every reachable state the stored account ids are
exactly `1..userIDGen` and the complaint ids exactly `1..compIDGen`, in
insertion order — two independent counters, starting at 1, never skipping,
never reusing; the bootstrap administrator holds id 1; N successful
`CreateAccount` calls extend the account ids by the contiguous range
`[k+1, k+N]`; and a successful `CreateRecord` allocates the next complaint
id. -/
theorem C6_id_allocation (ops : List Op) (reqs : List (Nat × String × String)) :
    ((runOps ops).users.map (fun u => u.id) = List.range' 1 (runOps ops).userIDGen) ∧
    ((runOps ops).complaints.map (fun c => c.id) =
      List.range' 1 (runOps ops).compIDGen) ∧
    (∃ a ∈ (runOps ops).users, a.id = 1 ∧ a.isAdmin = true) ∧
    (burstAllCreated reqs (runOps ops) →
      (regBurst reqs (runOps ops)).users.map (fun u => u.id) =
        (runOps ops).users.map (fun u => u.id) ++
          List.range' ((runOps ops).userIDGen + 1) reqs.length) ∧
    (∀ (now : Nat) (sc t sm : String) (r : Int) (c : Complaint) (s2 : Storage),
      submitComplaintHandler now sc t sm r (runOps ops) = (SubmitResult.created c, s2) →
      c.id = (runOps ops).compIDGen + 1 ∧ s2.compIDGen = (runOps ops).compIDGen + 1) := by
  have h := inv_runOps ops
  refine ⟨h.huid, h.hcid, ?_, ?_, ?_⟩
  · obtain ⟨a, ha, h1, h2⟩ := h.hadm
    exact ⟨a, ha, h1, h2⟩
  · intro hall
    exact (regBurst_ids reqs _ hall).1
  · intro now sc t sm r c s2 hsub
    unfold submitComplaintHandler at hsub
    split at hsub
    · simp at hsub
    split at hsub
    · simp at hsub
    split at hsub
    · simp at hsub
    split at hsub
    · simp at hsub
    split at hsub
    · simp at hsub
    · dsimp only at hsub
      rw [Prod.mk.injEq] at hsub
      obtain ⟨h4, h5⟩ := hsub
      injection h4 with h6
      constructor
      · rw [← h6]
      · rw [← h5]

def c6Reqs : List (Nat × String × String) := [(5, "A", "a@p.com"), (6, "B", "b@p.com")]

theorem C6_id_allocation_witness :
    (regBurst c6Reqs (runOps [])).users.map (fun u => u.id) =
      (runOps []).users.map (fun u => u.id) ++
        List.range' ((runOps []).userIDGen + 1) c6Reqs.length :=
  (C6_id_allocation [] c6Reqs).2.2.2.1 ⟨by decide, by decide, trivial⟩

def c7Ops : List Op :=
  [Op.register 10 "Ann" "ann@x.com", Op.submit 11 "SEC_10_3" "T1" "S1" 5,
   Op.submit 12 "SEC_10_3" "T2" "S2" 6]

/-- Claim C7 (counterexample).  The claim promises that, for a fixed unchanged
store, the listing handlers return the same ordered sequence on every
invocation, with insertion order as the reference.  Go's map `range` order is
unspecified; the entry list and its reverse are both admissible iteration
orders of the same unchanged store, and they produce different output
sequences for both handlers. -/
theorem C7_stable_order_counterexample :
    ((runOps c7Ops).complaints.reverse).Perm (runOps c7Ops).complaints ∧
    getAllComplaintsForUserHandler "SEC_10_3" (runOps c7Ops).complaints
        (runOps c7Ops) ≠
      getAllComplaintsForUserHandler "SEC_10_3"
        ((runOps c7Ops).complaints.reverse) (runOps c7Ops) ∧
    getAllComplaintsForAdminHandler "ADMIN_SECRET_123" (runOps c7Ops).complaints
        (runOps c7Ops) ≠
      getAllComplaintsForAdminHandler "ADMIN_SECRET_123"
        ((runOps c7Ops).complaints.reverse) (runOps c7Ops) :=
  ⟨List.reverse_perm _, by decide, by decide⟩

/-- Claim C7 (amended).  What does hold: for every admissible iteration order
the user listing is exactly that order filtered to the caller's id — a
snapshot whose *content* is exactly the matching complaints (a permutation of
the authoritative filter) — and the admin listing is the full entry multiset;
no ordering stability across invocations is guaranteed. -/
theorem C7_snapshot_content (s : Storage) (secretCode adminSc : String)
    (order order2 : List Complaint) (u a : User)
    (horder : order.Perm s.complaints) (horder2 : order2.Perm s.complaints)
    (hsc : trimSpace secretCode ≠ "") (hasc : trimSpace adminSc ≠ "")
    (hauth : findUserBySecretCode secretCode s = some u)
    (haauth : findUserBySecretCode adminSc s = some a) (hadm : a.isAdmin = true) :
    getAllComplaintsForUserHandler secretCode order s =
      ListResult.ok (order.filter (fun c => c.userId == u.id)) ∧
    (order.filter (fun c => c.userId == u.id)).Perm
      (s.complaints.filter (fun c => c.userId == u.id)) ∧
    getAllComplaintsForAdminHandler adminSc order2 s = ListResult.ok order2 ∧
    order2.Perm s.complaints := by
  refine ⟨?_, horder.filter _, ?_, horder2⟩
  · unfold getAllComplaintsForUserHandler
    rw [if_neg hsc, hauth]
  · unfold getAllComplaintsForAdminHandler
    rw [if_neg hasc, haauth]
    dsimp only
    rw [hadm]
    rw [if_neg (show ¬((!true) = true) by decide)]

/-- The first complaint copy after `c7Ops`. -/
def c7Copy1 : Complaint :=
  { id := 1
    title := "T1"
    summary := "S1"
    rating := 5
    userId := 2
    userName := "Ann"
    isResolved := false
    createdAt := "11"
    resolvedAt := "" }

/-- The second complaint copy after `c7Ops`. -/
def c7Copy2 : Complaint :=
  { id := 2
    title := "T2"
    summary := "S2"
    rating := 6
    userId := 2
    userName := "Ann"
    isResolved := false
    createdAt := "12"
    resolvedAt := "" }

/-- The registered user after `c7Ops`. -/
def c7Ann : User :=
  { id := 2
    secretCode := "SEC_10_3"
    name := "Ann"
    email := "ann@x.com"
    complaints := [c7Copy1, c7Copy2]
    isAdmin := false }

theorem C7_snapshot_content_witness :
    getAllComplaintsForUserHandler "SEC_10_3" (runOps c7Ops).complaints
        (runOps c7Ops) =
      ListResult.ok ((runOps c7Ops).complaints.filter
        (fun c => c.userId == c7Ann.id)) ∧
    ((runOps c7Ops).complaints.filter (fun c => c.userId == c7Ann.id)).Perm
      ((runOps c7Ops).complaints.filter (fun c => c.userId == c7Ann.id)) ∧
    getAllComplaintsForAdminHandler "ADMIN_SECRET_123" (runOps c7Ops).complaints
      (runOps c7Ops) = ListResult.ok (runOps c7Ops).complaints ∧
    (runOps c7Ops).complaints.Perm (runOps c7Ops).complaints :=
  C7_snapshot_content (runOps c7Ops) "SEC_10_3" "ADMIN_SECRET_123"
    (runOps c7Ops).complaints (runOps c7Ops).complaints c7Ann adminUser
    (List.Perm.refl _) (List.Perm.refl _) (by decide) (by decide) (by decide)
    (by decide) (by decide)

/-- Claim C8 (confirmed).  With well-formed other fields and an authenticated
caller, submission accepts exactly the ratings in `[1, 10]` — the boundary
values included — storing a complaint carrying the submitted rating, and
rejects every rating outside the range with a validation failure that leaves
the store untouched. -/
theorem C8_rating_bounds (now : Nat) (secretCode title summary : String)
    (rating : Int) (s : Storage) (u : User)
    (hsc : trimSpace secretCode ≠ "") (ht : trimSpace title ≠ "")
    (hsm : trimSpace summary ≠ "")
    (hauth : findUserBySecretCode secretCode s = some u) :
    (1 ≤ rating ∧ rating ≤ 10 →
      ∃ c, (submitComplaintHandler now secretCode title summary rating s).1 =
          SubmitResult.created c ∧ c.rating = rating ∧
        (submitComplaintHandler now secretCode title summary rating s).2.complaints =
          s.complaints ++ [c]) ∧
    (rating < 1 ∨ rating > 10 →
      (submitComplaintHandler now secretCode title summary rating s).1 =
        SubmitResult.badRequest "Rating must be between 1 and 10" ∧
      (submitComplaintHandler now secretCode title summary rating s).2 = s) := by
  unfold submitComplaintHandler
  rw [if_neg hsc, if_neg ht, if_neg hsm]
  constructor
  · intro hr
    rw [if_neg (show ¬(rating < 1 ∨ rating > 10) by omega), hauth]
    exact ⟨_, rfl, rfl, rfl⟩
  · intro hr
    rw [if_pos hr]
    exact ⟨rfl, rfl⟩

def c8Ops : List Op := [Op.register 10 "Ann" "ann@x.com"]

/-- The registered user after `c8Ops`. -/
def c8Ann : User :=
  { id := 2
    secretCode := "SEC_10_3"
    name := "Ann"
    email := "ann@x.com"
    complaints := []
    isAdmin := false }

theorem C8_rating_bounds_witness :
    (∃ c, (submitComplaintHandler 11 "SEC_10_3" "T" "S" 1 (runOps c8Ops)).1 =
        SubmitResult.created c ∧ c.rating = 1 ∧
      (submitComplaintHandler 11 "SEC_10_3" "T" "S" 1 (runOps c8Ops)).2.complaints =
        (runOps c8Ops).complaints ++ [c]) ∧
    (∃ c, (submitComplaintHandler 11 "SEC_10_3" "T" "S" 10 (runOps c8Ops)).1 =
        SubmitResult.created c ∧ c.rating = 10 ∧
      (submitComplaintHandler 11 "SEC_10_3" "T" "S" 10 (runOps c8Ops)).2.complaints =
        (runOps c8Ops).complaints ++ [c]) ∧
    ((submitComplaintHandler 11 "SEC_10_3" "T" "S" 0 (runOps c8Ops)).1 =
        SubmitResult.badRequest "Rating must be between 1 and 10" ∧
      (submitComplaintHandler 11 "SEC_10_3" "T" "S" 0 (runOps c8Ops)).2 =
        runOps c8Ops) ∧
    ((submitComplaintHandler 11 "SEC_10_3" "T" "S" 11 (runOps c8Ops)).1 =
        SubmitResult.badRequest "Rating must be between 1 and 10" ∧
      (submitComplaintHandler 11 "SEC_10_3" "T" "S" 11 (runOps c8Ops)).2 =
        runOps c8Ops) :=
  ⟨(C8_rating_bounds 11 "SEC_10_3" "T" "S" 1 (runOps c8Ops) c8Ann (by decide)
      (by decide) (by decide) (by decide)).1 (by decide),
   (C8_rating_bounds 11 "SEC_10_3" "T" "S" 10 (runOps c8Ops) c8Ann (by decide)
      (by decide) (by decide) (by decide)).1 (by decide),
   (C8_rating_bounds 11 "SEC_10_3" "T" "S" 0 (runOps c8Ops) c8Ann (by decide)
      (by decide) (by decide) (by decide)).2 (by decide),
   (C8_rating_bounds 11 "SEC_10_3" "T" "S" 11 (runOps c8Ops) c8Ann (by decide)
      (by decide) (by decide) (by decide)).2 (by decide)⟩

/-- Claim C9 (confirmed).  The per-owner listing is derived from the
authoritative complaint collection: whatever iteration orders the runtime
picks for the two handlers, the user listing is a permutation of the admin
listing (AllRecords) filtered to the owner's id. -/
theorem C9_view_from_authoritative (s : Storage) (userSc adminSc : String)
    (order1 order2 l L : List Complaint) (u a : User)
    (h1 : order1.Perm s.complaints) (h2 : order2.Perm s.complaints)
    (husc : trimSpace userSc ≠ "") (hasc : trimSpace adminSc ≠ "")
    (hu : findUserBySecretCode userSc s = some u)
    (ha : findUserBySecretCode adminSc s = some a) (hadm : a.isAdmin = true)
    (hl : getAllComplaintsForUserHandler userSc order1 s = ListResult.ok l)
    (hL : getAllComplaintsForAdminHandler adminSc order2 s = ListResult.ok L) :
    l.Perm (L.filter (fun c => c.userId == u.id)) := by
  have hl2 : l = order1.filter (fun c => c.userId == u.id) := by
    unfold getAllComplaintsForUserHandler at hl
    rw [if_neg husc, hu] at hl
    injection hl with h
    exact h.symm
  have hL2 : L = order2 := by
    unfold getAllComplaintsForAdminHandler at hL
    rw [if_neg hasc, ha] at hL
    dsimp only at hL
    rw [hadm] at hL
    rw [if_neg (show ¬((!true) = true) by decide)] at hL
    injection hL with h
    exact h.symm
  rw [hl2, hL2]
  exact (h1.trans h2.symm).filter _

def c9Ops : List Op :=
  [Op.register 10 "Ann" "ann@x.com", Op.submit 11 "SEC_10_3" "T1" "S1" 5,
   Op.submit 12 "SEC_10_3" "T2" "S2" 6]

/-- The first complaint copy after `c9Ops`. -/
def c9Copy1 : Complaint :=
  { id := 1
    title := "T1"
    summary := "S1"
    rating := 5
    userId := 2
    userName := "Ann"
    isResolved := false
    createdAt := "11"
    resolvedAt := "" }

/-- The second complaint copy after `c9Ops`. -/
def c9Copy2 : Complaint :=
  { id := 2
    title := "T2"
    summary := "S2"
    rating := 6
    userId := 2
    userName := "Ann"
    isResolved := false
    createdAt := "12"
    resolvedAt := "" }

/-- The registered user after `c9Ops`. -/
def c9Ann : User :=
  { id := 2
    secretCode := "SEC_10_3"
    name := "Ann"
    email := "ann@x.com"
    complaints := [c9Copy1, c9Copy2]
    isAdmin := false }

theorem C9_view_from_authoritative_witness :
    ((runOps c9Ops).complaints.filter (fun c => c.userId == c9Ann.id)).Perm
      (((runOps c9Ops).complaints.reverse).filter
        (fun c => c.userId == c9Ann.id)) :=
  C9_view_from_authoritative (runOps c9Ops) "SEC_10_3" "ADMIN_SECRET_123"
    (runOps c9Ops).complaints ((runOps c9Ops).complaints.reverse)
    ((runOps c9Ops).complaints.filter (fun c => c.userId == c9Ann.id))
    ((runOps c9Ops).complaints.reverse) c9Ann adminUser
    (List.Perm.refl _) (List.reverse_perm _) (by decide) (by decide) (by decide)
    (by decide) (by decide) (by decide) (by decide)

/-- Claim C10 (confirmed).  For an authenticated caller and a well-formed
(positive) requested id: when the complaint exists the handler returns it
exactly when the caller is an administrator or owns it, and fails with the
permission error otherwise; when the id is absent the handler answers
NotFound regardless of the caller's rights — the existence check runs before
the permission check. -/
theorem C10_view_permission (secretCode : String) (complaintID : Int)
    (s : Storage) (u : User) (hsc : trimSpace secretCode ≠ "")
    (hpos : 0 < complaintID)
    (hauth : findUserBySecretCode secretCode s = some u) :
    (∀ c, findComplaint complaintID s = some c →
      (viewComplaintHandler secretCode complaintID s = ViewResult.ok c ↔
        (u.isAdmin = true ∨ c.userId = u.id)) ∧
      (¬(u.isAdmin = true ∨ c.userId = u.id) →
        viewComplaintHandler secretCode complaintID s = ViewResult.forbidden)) ∧
    (findComplaint complaintID s = none →
      viewComplaintHandler secretCode complaintID s = ViewResult.notFound) := by
  unfold viewComplaintHandler
  rw [if_neg hsc, if_neg (show ¬complaintID ≤ 0 by omega), hauth]
  dsimp only
  constructor
  · intro c hc
    rw [hc]
    dsimp only
    by_cases hperm : u.isAdmin = true ∨ c.userId = u.id
    · have hcond : (!u.isAdmin && c.userId != u.id) = false := by
        rcases hperm with hp | hp
        · simp [hp]
        · simp [hp]
      rw [if_neg (show ¬((!u.isAdmin && c.userId != u.id) = true) by
        rw [hcond]; decide)]
      exact ⟨⟨fun _ => hperm, fun _ => rfl⟩, fun hq => absurd hperm hq⟩
    · have hA : u.isAdmin = false := by
        rcases hb : u.isAdmin with _ | _
        · rfl
        · exact absurd (Or.inl hb) hperm
      have hB : c.userId ≠ u.id := fun hq => hperm (Or.inr hq)
      have hcond : (!u.isAdmin && c.userId != u.id) = true := by
        simp [hA, hB]
      rw [if_pos hcond]
      exact ⟨⟨fun hq => ViewResult.noConfusion hq, fun hp => absurd hp hperm⟩,
        fun _ => rfl⟩
  · intro hnone
    rw [hnone]

def c10Ops : List Op :=
  [Op.register 10 "Ann" "ann@x.com", Op.submit 11 "SEC_10_3" "T1" "S1" 5]

/-- The stored complaint after `c10Ops`. -/
def c10Complaint : Complaint :=
  { id := 1
    title := "T1"
    summary := "S1"
    rating := 5
    userId := 2
    userName := "Ann"
    isResolved := false
    createdAt := "11"
    resolvedAt := "" }

/-- The registered user after `c10Ops`. -/
def c10Ann : User :=
  { id := 2
    secretCode := "SEC_10_3"
    name := "Ann"
    email := "ann@x.com"
    complaints := [c10Complaint]
    isAdmin := false }

theorem C10_view_permission_witness :
    viewComplaintHandler "SEC_10_3" 1 (runOps c10Ops) =
      ViewResult.ok c10Complaint ∧
    viewComplaintHandler "SEC_10_3" 99 (runOps c10Ops) = ViewResult.notFound :=
  ⟨((C10_view_permission "SEC_10_3" 1 (runOps c10Ops) c10Ann (by decide)
      (by decide) (by decide)).1 c10Complaint (by decide)).1.2
        (Or.inr (by decide)),
   (C10_view_permission "SEC_10_3" 99 (runOps c10Ops) c10Ann (by decide)
      (by decide) (by decide)).2 (by decide)⟩

end ComplaintPortal
